import Mathlib

/-!
Shallow embedding of the PDF-Converter application (src/App.tsx).

The only non-trivial logic of the repository is the `convertToPDF` routine
(src/App.tsx lines 52-169): it builds an in-memory PDF document (one title
page plus strategy-specific content), serializes it and persists the bytes.
We embed the data model (pages as lists of draw operations), the three
synthesis strategies, and the surrounding pipeline with explicit effect
traces, and prove the frozen claims about them.

External collaborators (expo-file-system reads/writes, pdf-lib embed/save)
are modelled as an explicit environment; the pdf-lib pieces that the spec
describes as the Document Builder (`embedRasterImage`, `serialize`) are not
in src/ and are modelled from the spec where marked.
-/

/-- The error kinds named by the spec (section 7). -/
inductive ConvErr where
  | NoFileSelected
  | SourceUnreadable
  | UnsupportedImageFormat
  | CorruptImageData
  | SerializationError
  | PersistenceFailure
deriving DecidableEq

/-- One text draw operation, as passed to `page.drawText` in src/App.tsx
(content, x, y, size, optional maxWidth; the color is always rgb(0,0,0)
and is omitted). -/
structure TextOp where
  content : String
  x : Int
  y : Int
  size : Nat
  maxWidth : Option Nat
deriving DecidableEq

/-- One image draw operation, as passed to `page.drawImage` in src/App.tsx
(x, y, width, height); width and height come from `embeddedImage.scale(0.5)`
so they are rationals. -/
structure ImageOp where
  x : Int
  y : Int
  width : ℚ
  height : ℚ
deriving DecidableEq

/-- A draw operation: text or image (spec section 3, `DrawOperation`). -/
inductive DrawOp where
  | text : TextOp → DrawOp
  | image : ImageOp → DrawOp
deriving DecidableEq

/-- A page is the ordered list of draw operations appended to it. -/
abbrev Page := List DrawOp

/-- A document is the ordered list of its pages. -/
abbrev Document := List Page

/-- The selected file (src/App.tsx `SelectedFile`, minus the `null` case
which is carried by `Option` in the application state). -/
structure SelectedFile where
  uri : String
  name : String
  mimeType : Option String
deriving DecidableEq

/-- Result of `FileSystem.getInfoAsync`: existence flag and byte size
(src/App.tsx line 124; `size` is only read when `exist` is true). -/
structure FileInfo where
  exist : Bool
  size : Nat
deriving DecidableEq

/-- JS `s.split('\n')` on the character list: splits on every line feed,
never returns an empty list (src/App.tsx line 75). -/
def splitLinesChars : List Char → List (List Char)
  | [] => [[]]
  | c :: cs =>
    if c = '\n' then [] :: splitLinesChars cs
    else
      match splitLinesChars cs with
      | [] => [[c]]
      | l :: ls => (c :: l) :: ls

/-- JS `textContent.split('\n')` (src/App.tsx line 75). -/
def splitLines (s : String) : List String :=
  (splitLinesChars s.data).map String.mk

/-- JS truthiness choice `m || d` for an optional string: `null` and the
empty string are both falsy (src/App.tsx line 133). -/
def jsOr (m : Option String) (d : String) : String :=
  match m with
  | none => d
  | some s => if s = "" then d else s

/-- JS `m?.startsWith(p)` where `m` may be null: null gives `undefined`,
which is falsy (src/App.tsx lines 73 and 95). -/
def declaredStartsWith (m : Option String) (p : String) : Bool :=
  match m with
  | none => false
  | some s => List.isPrefixOf p.data s.data

/-- JS `(n / 1024).toFixed(2)` for a byte count `n` (src/App.tsx line 135).
`n / 1024` is a dyadic rational, hence exact as a double, and `toFixed`
rounds the exact value to the nearest hundredth, ties towards the larger
integer; so the hundredths are `(n * 200 + 1024) / 2048` rounded down. -/
def toFixed2Div1024 (n : Nat) : String :=
  let h := (n * 200 + 1024) / 2048
  toString (h / 100) ++ "." ++ (if h % 100 < 10 then "0" else "") ++ toString (h % 100)

/-- The effect of the regex replace `name.replace(/\.[^/.]+$/, '')` on the
character list: remove a trailing `.ext` whose `ext` is nonempty and free of
`.` and `/` (src/App.tsx line 149). -/
def stripExtChars (cs : List Char) : List Char :=
  match cs.reverse.drop (cs.reverse.takeWhile (fun c => !(c == '.' || c == '/'))).length with
  | '.' :: rest =>
      if (cs.reverse.takeWhile (fun c => !(c == '.' || c == '/'))).isEmpty then cs
      else rest.reverse
  | _ => cs

/-- JS `name.replace(/\.[^/.]+$/, '')` (src/App.tsx line 149). -/
def stripLastExt (name : String) : String :=
  String.mk (stripExtChars name.data)

/-- The persisted destination path
`${FileSystem.documentDirectory}${name.replace(/\.[^/.]+$/, '')}.pdf`
(src/App.tsx line 149). -/
def destPath (documentsRoot name : String) : String :=
  documentsRoot ++ stripLastExt name ++ ".pdf"

/-- The title header drawn on the first page before any strategy runs
(src/App.tsx lines 65-70). -/
def titleOp (name : String) : DrawOp :=
  DrawOp.text ⟨"Converted from: " ++ name, 50, 800, 18, none⟩

/-- One payload line of the text layout strategy, drawn at the vertical
cursor `y` (src/App.tsx lines 85-91). -/
def lineOp (l : String) (y : Int) : DrawOp :=
  DrawOp.text ⟨l, 50, y, 12, some 500⟩

/-- Append a draw operation to the current (= last allocated) page; the
document is never empty when this is used (a first page is allocated at
src/App.tsx line 62). -/
def appendToLast (d : Document) (op : DrawOp) : Document :=
  match d with
  | [] => [[op]]
  | [p] => [p ++ [op]]
  | p :: rest => p :: appendToLast rest op

/-- The text layout loop of src/App.tsx lines 80-93: for each line, if the
cursor would collide with the 50-point bottom margin, reset it to 750 and
allocate a new page; draw the line at the cursor; step down 14 points. -/
def textLoop : List String → Int → Document → Document
  | [], _, doc => doc
  | l :: ls, y, doc =>
    if y < 50 then
      textLoop ls (750 - 14) (appendToLast (doc ++ [[]]) (lineOp l 750))
    else
      textLoop ls (y - 14) (appendToLast doc (lineOp l y))

/-- The raster formats the Document Builder distinguishes; `other` stands
for any format that is neither PNG nor JPEG (spec section 4.1). -/
inductive ImgFormat where
  | png
  | jpg
  | other : String → ImgFormat
deriving DecidableEq

/-- A decoded raster resource with its intrinsic dimensions
(spec section 3, `EmbeddedImage`). -/
structure EmbeddedImage where
  width : Nat
  height : Nat
deriving DecidableEq

/-- The PNG signature bytes. -/
def pngMagic : List Nat := [137, 80, 78, 71, 13, 10, 26, 10]

/-- The JPEG start-of-image marker bytes. -/
def jpgMagic : List Nat := [255, 216]

/-- Modelled from the spec: pdf-lib's `embedPng`/`embedJpg` (the Document
Builder's `embedRasterImage`, spec section 4.1) is not part of src/. Per the
spec it "decodes bytes as PNG or JPEG per `format`; fails with
`UnsupportedImageFormat` if format is neither; fails with `CorruptImageData`
if decoding fails (malformed header, truncated stream)". We model the
decoder by its magic-header check and abstract the intrinsic dimensions a
successful decode would report as the parameter `dims`. -/
def embedRasterImage (dims : Nat × Nat) (fmt : ImgFormat) (bytes : List Nat) :
    Except ConvErr EmbeddedImage :=
  match fmt with
  | ImgFormat.other _ => Except.error ConvErr.UnsupportedImageFormat
  | ImgFormat.png =>
      if List.isPrefixOf pngMagic bytes then Except.ok ⟨dims.1, dims.2⟩
      else Except.error ConvErr.CorruptImageData
  | ImgFormat.jpg =>
      if List.isPrefixOf jpgMagic bytes then Except.ok ⟨dims.1, dims.2⟩
      else Except.error ConvErr.CorruptImageData

/-- Modelled from the spec: pdf-lib's `PDFDocument.save` (the Document
Builder's `serialize`, spec section 4.1) is not part of src/. Per the spec it
"fails with `SerializationError` if the Document has zero pages" and
otherwise deterministically produces the PDF byte stream; we represent the
byte stream abstractly by the frozen Document itself. -/
def serialize (d : Document) : Except ConvErr Document :=
  if d.isEmpty then Except.error ConvErr.SerializationError else Except.ok d

/-- The raster format chosen from the declared MIME type alone:
`image/png` gives PNG, every other `image/*` gives JPEG
(src/App.tsx lines 107-111). -/
def imageFormatOf (m : Option String) : ImgFormat :=
  if m = some "image/png" then ImgFormat.png else ImgFormat.jpg

/-- The multi-line metadata block of the fallback strategy
(src/App.tsx lines 131-137). -/
def metaBlock (f : SelectedFile) (info : FileInfo) (now : String) : String :=
  "Original File: " ++ f.name ++ "\n" ++
  "Type: " ++ jsOr f.mimeType "unknown" ++ "\n" ++
  "Size: " ++ (if info.exist then toFixed2Div1024 info.size ++ " KB" else "unknown") ++ "\n" ++
  "Converted on: " ++ now

/-- The external collaborators, as an explicit environment: the file-system
reads (`readAsStringAsync` as text and as base64 plus `atob` decoding, so
`readBytes` already yields the raw bytes), the existence/size probe
(`getInfoAsync`), the pdf-lib image embedding, whether the persistence write
(`writeAsStringAsync`, modelled atomic: a failed write persists nothing, per
the spec "no partial PDF is persisted") succeeds at a path, the wall clock
string, and `FileSystem.documentDirectory`. -/
structure Env where
  readText : String → Except ConvErr String
  readBytes : String → Except ConvErr (List Nat)
  embed : ImgFormat → List Nat → Except ConvErr EmbeddedImage
  getInfo : String → FileInfo
  writeOk : String → Bool
  now : String
  documentsRoot : String

/-- One fallible or effectful step of the synthesis pipeline, recorded in
order of execution. -/
inductive Step where
  | readTextStep
  | readBytesStep
  | embedStep
  | getInfoStep
  | serializeStep
  | writeStep
deriving DecidableEq

/-- The three synthesis strategies (spec section 2). -/
inductive Strategy where
  | textLayout
  | imageEmbedding
  | metadataFallback
deriving DecidableEq

/-- The dispatch of src/App.tsx lines 73, 95 and 122: first-match,
case-sensitive prefix test on the declared MIME type. -/
def selectStrategy (m : Option String) : Strategy :=
  if declaredStartsWith m "text/" then Strategy.textLayout
  else if declaredStartsWith m "image/" then Strategy.imageEmbedding
  else Strategy.metadataFallback

/-- The first pipeline step each strategy performs. -/
def strategyStep : Strategy → Step
  | Strategy.textLayout => Step.readTextStep
  | Strategy.imageEmbedding => Step.readBytesStep
  | Strategy.metadataFallback => Step.getInfoStep

/-- src/App.tsx lines 61-145: create the document, add the first (A4) page,
draw the title header, then run the strategy selected by the declared MIME
type. Returns the executed pipeline steps together with the built document
or the first error. -/
def buildDocument (env : Env) (f : SelectedFile) : List Step × Except ConvErr Document :=
  let doc0 : Document := [[titleOp f.name]]
  if declaredStartsWith f.mimeType "text/" then
    match env.readText f.uri with
    | Except.error e => ([Step.readTextStep], Except.error e)
    | Except.ok content =>
        ([Step.readTextStep], Except.ok (textLoop (splitLines content) 750 doc0))
  else if declaredStartsWith f.mimeType "image/" then
    match env.readBytes f.uri with
    | Except.error e => ([Step.readBytesStep], Except.error e)
    | Except.ok bytes =>
        match env.embed (imageFormatOf f.mimeType) bytes with
        | Except.error e => ([Step.readBytesStep, Step.embedStep], Except.error e)
        | Except.ok img =>
            ([Step.readBytesStep, Step.embedStep],
             Except.ok (appendToLast doc0
               (DrawOp.image ⟨50, 400, (img.width : ℚ) / 2, (img.height : ℚ) / 2⟩)))
  else
    let info := env.getInfo f.uri
    ([Step.getInfoStep],
     Except.ok (appendToLast
       (appendToLast doc0 (DrawOp.text ⟨"File Conversion Details", 50, 700, 16, none⟩))
       (DrawOp.text ⟨metaBlock f info env.now, 50, 650, 12, none⟩)))

/-- The pieces of application state that `convertToPDF` reads or writes
(src/App.tsx lines 27-29). -/
structure AppState where
  selectedFile : Option SelectedFile
  isConverting : Bool
  downloadUrl : Option String
deriving DecidableEq

instance {ε α : Type} [DecidableEq ε] [DecidableEq α] : DecidableEq (Except ε α) := fun a b =>
  match a, b with
  | Except.error e, Except.error e' =>
      if h : e = e' then isTrue (by rw [h]) else isFalse (fun hh => h (Except.error.inj hh))
  | Except.error _, Except.ok _ => isFalse (fun hh => Except.noConfusion hh)
  | Except.ok _, Except.error _ => isFalse (fun hh => Except.noConfusion hh)
  | Except.ok x, Except.ok y =>
      if h : x = y then isTrue (by rw [h]) else isFalse (fun hh => h (Except.ok.inj hh))

/-- The observable outcome of one `convertToPDF` invocation: the final
application state, the successive values passed to `setIsConverting`, the
pipeline steps that ran, the destination paths actually persisted, and the
overall result. -/
structure ConvOutcome where
  state : AppState
  busyTrace : List Bool
  steps : List Step
  writes : List String
  result : Except ConvErr Unit
deriving DecidableEq

/-- src/App.tsx lines 52-169: the whole conversion routine. Early return when
no file is selected; otherwise set the busy flag, build the document, save
(serialize) it, persist the bytes at the derived destination path, publish
the path in `downloadUrl` on full success, and clear the busy flag in the
`finally` block on every path. -/
def convertToPDF (env : Env) (st : AppState) : ConvOutcome :=
  match st.selectedFile with
  | none => ⟨st, [], [], [], Except.error ConvErr.NoFileSelected⟩
  | some f =>
      let built := buildDocument env f
      match built.2 with
      | Except.error e =>
          ⟨{ st with isConverting := false }, [true, false], built.1, [], Except.error e⟩
      | Except.ok doc =>
          match serialize doc with
          | Except.error e =>
              ⟨{ st with isConverting := false }, [true, false],
               built.1 ++ [Step.serializeStep], [], Except.error e⟩
          | Except.ok _bytes =>
              let path := destPath env.documentsRoot f.name
              if env.writeOk path then
                ⟨{ st with isConverting := false, downloadUrl := some path },
                 [true, false], built.1 ++ [Step.serializeStep, Step.writeStep],
                 [path], Except.ok ()⟩
              else
                ⟨{ st with isConverting := false }, [true, false],
                 built.1 ++ [Step.serializeStep, Step.writeStep], [],
                 Except.error ConvErr.PersistenceFailure⟩

/-- Number of payload lines drawn on a page by the text layout strategy:
its line operations all have font size 12, while the title header has size
18, so the size-12 text operations of a page are exactly its payload
lines. -/
def payloadLines (p : Page) : Nat :=
  (p.filter (fun o => match o with | DrawOp.text t => t.size == 12 | _ => false)).length

/-- Total number of image draw operations in a document. -/
def countImageOps (d : Document) : Nat :=
  (d.map (fun p =>
    (p.filter (fun o => match o with | DrawOp.image _ => true | _ => false)).length)).sum

/-- Whether `sub` occurs contiguously inside `s`. -/
def hasSegment : List Char → List Char → Bool
  | [], sub => List.isPrefixOf sub []
  | c :: t, sub => List.isPrefixOf sub (c :: t) || hasSegment t sub

/-- Whether the string `sub` is a literal substring of `s`. -/
def containsStr (s sub : String) : Bool :=
  hasSegment s.data sub.data

/-- `n` one-character lines separated by line feeds, as a character list. -/
def linesChars : Nat → List Char
  | 0 => []
  | 1 => ['x']
  | n + 2 => 'x' :: '\n' :: linesChars (n + 1)

/-- A 120-line text payload (the end-to-end example of the spec). -/
def content120 : String := String.mk (linesChars 120)

/-- A 60-line text payload (spans two pages). -/
def content60 : String := String.mk (linesChars 60)

/-- A baseline environment with innocuous collaborators; concrete scenarios
override the fields they exercise. -/
def envBase : Env :=
  ⟨fun _ => Except.ok "", fun _ => Except.ok [], embedRasterImage (640, 480),
   fun _ => ⟨false, 0⟩, fun _ => true, "2026-10-11 12:00:00", "file:///docs/"⟩

/-- A selected 120-line text file. -/
def fileText120 : SelectedFile := ⟨"file:///in/notes.txt", "notes.txt", some "text/plain"⟩

/-- Environment whose text read yields the 120-line payload. -/
def envText120 : Env := { envBase with readText := fun _ => Except.ok content120 }

/-- The document built for the 120-line text payload. -/
def docText120 : Document :=
  match (buildDocument envText120 fileText120).2 with
  | Except.ok d => d
  | Except.error _ => []

/-- A selected 60-line text file. -/
def fileText60 : SelectedFile := ⟨"file:///in/memo.txt", "memo.txt", some "text/plain"⟩

/-- Environment whose text read yields the 60-line payload. -/
def envText60 : Env := { envBase with readText := fun _ => Except.ok content60 }

/-- The document built for the 60-line text payload. -/
def docText60 : Document :=
  match (buildDocument envText60 fileText60).2 with
  | Except.ok d => d
  | Except.error _ => []

/-- The first bytes of a GIF payload (`GIF87a`). -/
def gifBytes : List Nat := [71, 73, 70, 56, 55, 97]

/-- A selected file declared as `image/gif`. -/
def fileGif : SelectedFile := ⟨"file:///in/anim.gif", "anim.gif", some "image/gif"⟩

/-- Environment whose byte read yields the GIF payload. -/
def envGif : Env := { envBase with readBytes := fun _ => Except.ok gifBytes }

/-- A PNG payload: signature plus some content bytes. -/
def pngBytes : List Nat := pngMagic ++ [0, 0, 0, 13, 73, 72, 68, 82]

/-- A selected file declared as `image/png`. -/
def filePng : SelectedFile := ⟨"file:///in/photo.png", "photo.png", some "image/png"⟩

/-- Environment whose byte read yields the PNG payload. -/
def envPng : Env := { envBase with readBytes := fun _ => Except.ok pngBytes }

/-- The archive file of the metadata-fallback example. -/
def fileZip : SelectedFile := ⟨"file:///in/archive.zip", "archive.zip", some "application/zip"⟩

/-- Environment whose existence probe reports 2048 bytes. -/
def envZip : Env := { envBase with getInfo := fun _ => ⟨true, 2048⟩ }

/-- The rendered metadata block of the archive example. -/
def blockZip : String := metaBlock fileZip ⟨true, 2048⟩ envZip.now

/-- Environment whose text read fails. -/
def envReadFail : Env :=
  { envBase with readText := fun _ => Except.error ConvErr.SourceUnreadable }

theorem appendToLast_ne_nil (d : Document) (op : DrawOp) : appendToLast d op ≠ [] := by
  match d with
  | [] => simp [appendToLast]
  | [p] => simp [appendToLast]
  | p :: q :: rest => simp [appendToLast]

theorem length_appendToLast (d : Document) (op : DrawOp) (h : d ≠ []) :
    (appendToLast d op).length = d.length := by
  match d with
  | [] => exact absurd rfl h
  | [p] => simp [appendToLast]
  | p :: q :: rest =>
      have ih := length_appendToLast (q :: rest) op (by simp)
      simp [appendToLast, ih]

/-- Number of page breaks the text loop performs on a list of lines when the
current page already holds `k` of them. -/
def extraN : Nat → Nat → Nat
  | 0, _ => 0
  | n + 1, k => if 51 ≤ k then 1 + extraN n 1 else extraN n (k + 1)

theorem extraN_eq (n : Nat) : ∀ k, k ≤ 51 → extraN n k = (n + k - 1) / 51 := by
  induction n with
  | zero => intro k hk; simp [extraN]; omega
  | succ n ih =>
      intro k hk
      by_cases h : 51 ≤ k
      · have hk51 : k = 51 := le_antisymm hk h
        subst hk51
        have h1 := ih 1 (by omega)
        simp [extraN, h1]
        omega
      · have h2 := ih (k + 1) (by omega)
        simp [extraN, h, h2]

theorem textLoop_length (ls : List String) : ∀ (k : Nat) (d : Document), d ≠ [] →
    (textLoop ls (750 - 14 * (k : ℤ)) d).length = d.length + extraN ls.length k := by
  induction ls with
  | nil => intro k d _; simp [textLoop, extraN]
  | cons l ls ih =>
      intro k d hd
      by_cases hk : 51 ≤ k
      · have hy : (750 - 14 * (k : ℤ)) < 50 := by omega
        have e1 : (750 - 14 : ℤ) = 750 - 14 * ((1 : Nat) : ℤ) := by norm_num
        rw [textLoop, if_pos hy, e1,
          ih 1 (appendToLast (d ++ [[]]) (lineOp l 750)) (appendToLast_ne_nil _ _),
          length_appendToLast _ _ (by simp)]
        simp [extraN, hk]
        omega
      · have hy : ¬((750 - 14 * (k : ℤ)) < 50) := by omega
        have e1 : (750 - 14 * (k : ℤ)) - 14 = 750 - 14 * ((k + 1 : Nat) : ℤ) := by
          push_cast; ring
        rw [textLoop, if_neg hy, e1,
          ih (k + 1) (appendToLast d (lineOp l (750 - 14 * (k : ℤ)))) (appendToLast_ne_nil _ _),
          length_appendToLast _ _ hd]
        simp [extraN, hk]

theorem textLoop_length_start (ls : List String) (d : Document) (hd : d ≠ []) :
    (textLoop ls 750 d).length = d.length + (ls.length + 0 - 1) / 51 := by
  have h0 : (750 : ℤ) = 750 - 14 * ((0 : Nat) : ℤ) := by norm_num
  rw [h0, textLoop_length ls 0 d hd, extraN_eq ls.length 0 (by omega)]

theorem appendToLast_pred (P : DrawOp → Prop) (op : DrawOp) :
    ∀ d : Document, (∀ q ∈ d, ∀ o ∈ q, P o) → P op →
      ∀ q ∈ appendToLast d op, ∀ o ∈ q, P o := by
  intro d
  match d with
  | [] =>
      intro _ hop q hq o ho
      simp [appendToLast] at hq
      subst hq
      simp at ho
      subst ho
      exact hop
  | [p] =>
      intro hall hop q hq o ho
      simp [appendToLast] at hq
      subst hq
      rcases List.mem_append.mp ho with h1 | h1
      · exact hall p (by simp) o h1
      · simp at h1; subst h1; exact hop
  | p :: p2 :: rest =>
      intro hall hop q hq o ho
      rw [show appendToLast (p :: p2 :: rest) op = p :: appendToLast (p2 :: rest) op from rfl]
        at hq
      rcases List.mem_cons.mp hq with h1 | h1
      · subst h1; exact hall _ (by simp) o ho
      · exact appendToLast_pred P op (p2 :: rest)
          (fun q2 hq2 => hall q2 (List.mem_cons_of_mem p hq2)) hop q h1 o ho

/-- The shape invariant preserved by the text loop: the first page starts
with the title header and no later page contains it. -/
def TitledDoc (name : String) (d : Document) : Prop :=
  ∃ r t, d = (titleOp name :: r) :: t ∧ ∀ q ∈ t, ∀ o ∈ q, o ≠ titleOp name

theorem lineOp_ne_titleOp (l : String) (y : Int) (name : String) :
    lineOp l y ≠ titleOp name := by
  simp [lineOp, titleOp]

theorem appendLine_titled (name : String) (l : String) (y : Int) (d : Document)
    (h : TitledDoc name d) : TitledDoc name (appendToLast d (lineOp l y)) := by
  obtain ⟨r, t, hd, ht⟩ := h
  subst hd
  match t with
  | [] =>
      exact ⟨r ++ [lineOp l y], [], by simp [appendToLast], by simp⟩
  | q :: t2 =>
      refine ⟨r, appendToLast (q :: t2) (lineOp l y),
        by rw [show appendToLast ((titleOp name :: r) :: q :: t2) (lineOp l y) =
          (titleOp name :: r) :: appendToLast (q :: t2) (lineOp l y) from rfl], ?_⟩
      exact appendToLast_pred (fun o => o ≠ titleOp name) (lineOp l y) (q :: t2)
        ht (lineOp_ne_titleOp l y name)

theorem newPage_titled (name : String) (d : Document) (h : TitledDoc name d) :
    TitledDoc name (d ++ [[]]) := by
  obtain ⟨r, t, hd, ht⟩ := h
  subst hd
  refine ⟨r, t ++ [[]], by simp, ?_⟩
  intro q hq o ho
  rcases List.mem_append.mp hq with h1 | h1
  · exact ht q h1 o ho
  · simp at h1; subst h1; simp at ho

theorem textLoop_titled (name : String) (ls : List String) :
    ∀ (y : Int) (d : Document), TitledDoc name d → TitledDoc name (textLoop ls y d) := by
  induction ls with
  | nil => intro y d h; simpa [textLoop] using h
  | cons l ls ih =>
      intro y d h
      rw [textLoop]
      by_cases hy : y < 50
      · rw [if_pos hy]
        exact ih _ _ (appendLine_titled name l 750 _ (newPage_titled name d h))
      · rw [if_neg hy]
        exact ih _ _ (appendLine_titled name l y d h)

theorem not_text_of_image (m : Option String)
    (h : declaredStartsWith m "image/" = true) :
    declaredStartsWith m "text/" = false := by
  match m with
  | none => simp [declaredStartsWith] at h
  | some s =>
      simp only [declaredStartsWith] at h ⊢
      by_contra hc
      rw [Bool.not_eq_false] at hc
      have hT := List.isPrefixOf_iff_prefix.mp hc
      have hI := List.isPrefixOf_iff_prefix.mp h
      have hTI : "text/".data <+: "image/".data :=
        List.prefix_of_prefix_length_le hT hI (by decide)
      exact absurd hTI (by decide)

theorem takeWhile_append_all {α : Type} (p : α → Bool) (l₁ l₂ : List α)
    (h : ∀ c ∈ l₁, p c = true) :
    List.takeWhile p (l₁ ++ l₂) = l₁ ++ List.takeWhile p l₂ := by
  induction l₁ with
  | nil => simp
  | cons c cs ih =>
      have hc : p c = true := h c (by simp)
      simp only [List.cons_append, List.takeWhile_cons, hc, if_true]
      rw [ih (fun x hx => h x (List.mem_cons_of_mem c hx))]

theorem stripExtChars_no_dot (cs : List Char) (h : '.' ∉ cs) :
    stripExtChars cs = cs := by
  unfold stripExtChars
  split
  · case _ rest heq =>
      exfalso
      apply h
      have : '.' ∈ cs.reverse.drop
          (cs.reverse.takeWhile (fun c => !(c == '.' || c == '/'))).length := by
        rw [heq]; simp
      exact List.mem_reverse.mp (List.drop_subset _ _ this)
  · rfl

theorem stripExtChars_ext (base ext : List Char) (hne : ext ≠ [])
    (hdot : '.' ∉ ext) (hslash : '/' ∉ ext) :
    stripExtChars (base ++ '.' :: ext) = base := by
  have hrev : (base ++ '.' :: ext).reverse = ext.reverse ++ '.' :: base.reverse := by
    rw [List.reverse_append]
    simp
  have hall : ∀ c ∈ ext.reverse, (fun c => !(c == '.' || c == '/')) c = true := by
    intro c hc
    have hc2 : c ∈ ext := List.mem_reverse.mp hc
    have h1 : c ≠ '.' := fun he => hdot (he ▸ hc2)
    have h2 : c ≠ '/' := fun he => hslash (he ▸ hc2)
    simp [h1, h2]
  have htake : (base ++ '.' :: ext).reverse.takeWhile (fun c => !(c == '.' || c == '/'))
      = ext.reverse := by
    rw [hrev, takeWhile_append_all _ _ _ hall, List.takeWhile_cons]
    simp
  unfold stripExtChars
  rw [htake, hrev]
  have hdrop : (ext.reverse ++ '.' :: base.reverse).drop ext.reverse.length
      = '.' :: base.reverse := List.drop_left _ _
  rw [hdrop]
  have hempty : ext.reverse.isEmpty = false := by
    rw [List.isEmpty_eq_false]
    simp [hne]
  simp [hempty]

theorem buildDocument_text (env : Env) (f : SelectedFile) (content : String)
    (hm : declaredStartsWith f.mimeType "text/" = true)
    (hr : env.readText f.uri = Except.ok content) :
    buildDocument env f =
      ([Step.readTextStep],
       Except.ok (textLoop (splitLines content) 750 [[titleOp f.name]])) := by
  simp [buildDocument, hm, hr]

theorem buildDocument_image (env : Env) (f : SelectedFile) (bytes : List Nat)
    (img : EmbeddedImage)
    (hm : declaredStartsWith f.mimeType "image/" = true)
    (hr : env.readBytes f.uri = Except.ok bytes)
    (he : env.embed (imageFormatOf f.mimeType) bytes = Except.ok img) :
    buildDocument env f =
      ([Step.readBytesStep, Step.embedStep],
       Except.ok [[titleOp f.name,
         DrawOp.image ⟨50, 400, (img.width : ℚ) / 2, (img.height : ℚ) / 2⟩]]) := by
  simp [buildDocument, not_text_of_image f.mimeType hm, hm, hr, he, appendToLast]

theorem buildDocument_fallback (env : Env) (f : SelectedFile)
    (hmt : declaredStartsWith f.mimeType "text/" = false)
    (hmi : declaredStartsWith f.mimeType "image/" = false) :
    buildDocument env f =
      ([Step.getInfoStep],
       Except.ok [[titleOp f.name,
         DrawOp.text ⟨"File Conversion Details", 50, 700, 16, none⟩,
         DrawOp.text ⟨metaBlock f (env.getInfo f.uri) env.now, 50, 650, 12, none⟩]]) := by
  simp [buildDocument, hmt, hmi, appendToLast]

theorem buildDocument_text_err (env : Env) (f : SelectedFile) (e : ConvErr)
    (hm : declaredStartsWith f.mimeType "text/" = true)
    (hr : env.readText f.uri = Except.error e) :
    buildDocument env f = ([Step.readTextStep], Except.error e) := by
  simp [buildDocument, hm, hr]

theorem buildDocument_image_readErr (env : Env) (f : SelectedFile) (e : ConvErr)
    (hm : declaredStartsWith f.mimeType "image/" = true)
    (hr : env.readBytes f.uri = Except.error e) :
    buildDocument env f = ([Step.readBytesStep], Except.error e) := by
  simp [buildDocument, not_text_of_image f.mimeType hm, hm, hr]

theorem buildDocument_image_embedErr (env : Env) (f : SelectedFile) (bytes : List Nat)
    (e : ConvErr)
    (hm : declaredStartsWith f.mimeType "image/" = true)
    (hr : env.readBytes f.uri = Except.ok bytes)
    (he : env.embed (imageFormatOf f.mimeType) bytes = Except.error e) :
    buildDocument env f = ([Step.readBytesStep, Step.embedStep], Except.error e) := by
  simp [buildDocument, not_text_of_image f.mimeType hm, hm, hr, he]

theorem buildDocument_steps (env : Env) (f : SelectedFile) :
    (buildDocument env f).1 = [Step.readTextStep] ∨
    (buildDocument env f).1 = [Step.readBytesStep] ∨
    (buildDocument env f).1 = [Step.readBytesStep, Step.embedStep] ∨
    (buildDocument env f).1 = [Step.getInfoStep] := by
  cases h1 : declaredStartsWith f.mimeType "text/" with
  | true =>
      cases hr : env.readText f.uri with
      | error e => rw [buildDocument_text_err env f e h1 hr]; simp
      | ok content => rw [buildDocument_text env f content h1 hr]; simp
  | false =>
      cases h2 : declaredStartsWith f.mimeType "image/" with
      | true =>
          cases hr : env.readBytes f.uri with
          | error e => rw [buildDocument_image_readErr env f e h2 hr]; simp
          | ok bytes =>
              cases he : env.embed (imageFormatOf f.mimeType) bytes with
              | error e => rw [buildDocument_image_embedErr env f bytes e h2 hr he]; simp
              | ok img => rw [buildDocument_image env f bytes img h2 hr he]; simp
      | false => rw [buildDocument_fallback env f h1 h2]; simp

theorem buildDocument_pages (env : Env) (f : SelectedFile) (doc : Document)
    (h : (buildDocument env f).2 = Except.ok doc) : 1 ≤ doc.length := by
  cases h1 : declaredStartsWith f.mimeType "text/" with
  | true =>
      cases hr : env.readText f.uri with
      | error e => rw [buildDocument_text_err env f e h1 hr] at h; simp at h
      | ok content =>
          rw [buildDocument_text env f content h1 hr] at h
          simp at h
          subst h
          rw [textLoop_length_start _ _ (by simp)]
          simp
  | false =>
      cases h2 : declaredStartsWith f.mimeType "image/" with
      | true =>
          cases hr : env.readBytes f.uri with
          | error e => rw [buildDocument_image_readErr env f e h2 hr] at h; simp at h
          | ok bytes =>
              cases he : env.embed (imageFormatOf f.mimeType) bytes with
              | error e =>
                  rw [buildDocument_image_embedErr env f bytes e h2 hr he] at h; simp at h
              | ok img =>
                  rw [buildDocument_image env f bytes img h2 hr he] at h
                  simp at h
                  subst h
                  simp
      | false =>
          rw [buildDocument_fallback env f h1 h2] at h
          simp at h
          subst h
          simp

theorem buildDocument_titled (env : Env) (f : SelectedFile) (doc : Document)
    (h : (buildDocument env f).2 = Except.ok doc) : TitledDoc f.name doc := by
  cases h1 : declaredStartsWith f.mimeType "text/" with
  | true =>
      cases hr : env.readText f.uri with
      | error e => rw [buildDocument_text_err env f e h1 hr] at h; simp at h
      | ok content =>
          rw [buildDocument_text env f content h1 hr] at h
          simp at h
          subst h
          exact textLoop_titled f.name _ _ _ ⟨[], [], rfl, by simp⟩
  | false =>
      cases h2 : declaredStartsWith f.mimeType "image/" with
      | true =>
          cases hr : env.readBytes f.uri with
          | error e => rw [buildDocument_image_readErr env f e h2 hr] at h; simp at h
          | ok bytes =>
              cases he : env.embed (imageFormatOf f.mimeType) bytes with
              | error e =>
                  rw [buildDocument_image_embedErr env f bytes e h2 hr he] at h; simp at h
              | ok img =>
                  rw [buildDocument_image env f bytes img h2 hr he] at h
                  simp at h
                  subst h
                  exact ⟨[DrawOp.image ⟨50, 400, (img.width : ℚ) / 2, (img.height : ℚ) / 2⟩],
                    [], rfl, by simp⟩
      | false =>
          rw [buildDocument_fallback env f h1 h2] at h
          simp at h
          subst h
          exact ⟨[DrawOp.text ⟨"File Conversion Details", 50, 700, 16, none⟩,
            DrawOp.text ⟨metaBlock f (env.getInfo f.uri) env.now, 50, 650, 12, none⟩],
            [], rfl, by simp⟩

theorem serialize_ok (doc : Document) (h : 1 ≤ doc.length) :
    serialize doc = Except.ok doc := by
  match doc with
  | [] => simp at h
  | p :: rest => simp [serialize]

theorem convertToPDF_none (env : Env) (st : AppState) (h : st.selectedFile = none) :
    convertToPDF env st = ⟨st, [], [], [], Except.error ConvErr.NoFileSelected⟩ := by
  simp [convertToPDF, h]

theorem convertToPDF_buildErr (env : Env) (st : AppState) (f : SelectedFile) (e : ConvErr)
    (hs : st.selectedFile = some f) (hb : (buildDocument env f).2 = Except.error e) :
    convertToPDF env st =
      ⟨{ st with isConverting := false }, [true, false], (buildDocument env f).1, [],
       Except.error e⟩ := by
  simp only [convertToPDF, hs]
  rw [hb]

theorem convertToPDF_writeOk (env : Env) (st : AppState) (f : SelectedFile) (doc : Document)
    (hs : st.selectedFile = some f) (hb : (buildDocument env f).2 = Except.ok doc)
    (hw : env.writeOk (destPath env.documentsRoot f.name) = true) :
    convertToPDF env st =
      ⟨{ st with isConverting := false
               , downloadUrl := some (destPath env.documentsRoot f.name) },
       [true, false], (buildDocument env f).1 ++ [Step.serializeStep, Step.writeStep],
       [destPath env.documentsRoot f.name], Except.ok ()⟩ := by
  simp only [convertToPDF, hs]
  rw [hb]
  simp only [serialize_ok doc (buildDocument_pages env f doc hb)]
  simp [hw]

theorem convertToPDF_writeErr (env : Env) (st : AppState) (f : SelectedFile) (doc : Document)
    (hs : st.selectedFile = some f) (hb : (buildDocument env f).2 = Except.ok doc)
    (hw : env.writeOk (destPath env.documentsRoot f.name) = false) :
    convertToPDF env st =
      ⟨{ st with isConverting := false }, [true, false],
       (buildDocument env f).1 ++ [Step.serializeStep, Step.writeStep], [],
       Except.error ConvErr.PersistenceFailure⟩ := by
  simp only [convertToPDF, hs]
  rw [hb]
  simp only [serialize_ok doc (buildDocument_pages env f doc hb)]
  simp [hw]

set_option maxRecDepth 4000 in
/-- C1, counterexample: on the 120-line payload the code produces 3 pages
holding 51, 51 and 18 payload lines — not 50, 50 and 20 — and the page
count differs from the claimed formula `1 + floor((120 - 50) / 50) = 2`. -/
theorem C1_counterexample :
    docText120.map payloadLines = [51, 51, 18] ∧
    docText120.map payloadLines ≠ [50, 50, 20] ∧
    docText120.length = 3 ∧
    docText120.length ≠ 1 + (((splitLines content120).length - 50) / 50) := by
  decide

/-- C1, amended: the capacity of every page is 51 lines (the cursor runs
from 750 down to 50 inclusive at 14-point line height), so a text payload
of `n` lines produces `1 + floor((n - 1) / 51)` pages: exactly 1 when
`n ≤ 51` and `1 + ceil((n - 51) / 51)` when `n > 51`. -/
theorem C1_text_page_count (env : Env) (f : SelectedFile) (content : String)
    (hm : declaredStartsWith f.mimeType "text/" = true)
    (hr : env.readText f.uri = Except.ok content) :
    ∃ doc, (buildDocument env f).2 = Except.ok doc ∧
      doc.length = 1 + ((splitLines content).length - 1) / 51 ∧
      ((splitLines content).length ≤ 51 → doc.length = 1) ∧
      (51 < (splitLines content).length →
        doc.length = 1 + ((splitLines content).length - 51 + 50) / 51) := by
  refine ⟨textLoop (splitLines content) 750 [[titleOp f.name]],
    by rw [buildDocument_text env f content hm hr], ?_, ?_, ?_⟩
  · rw [textLoop_length_start _ _ (by simp)]
    simp
  · intro h
    rw [textLoop_length_start _ _ (by simp)]
    simp
    omega
  · intro h
    rw [textLoop_length_start _ _ (by simp)]
    simp
    omega

theorem C1_text_page_count_witness :
    ∃ doc, (buildDocument envText120 fileText120).2 = Except.ok doc ∧
      doc.length = 1 + ((splitLines content120).length - 1) / 51 ∧
      ((splitLines content120).length ≤ 51 → doc.length = 1) ∧
      (51 < (splitLines content120).length →
        doc.length = 1 + ((splitLines content120).length - 51 + 50) / 51) :=
  C1_text_page_count envText120 fileText120 content120 (by decide) rfl

/-- C2, counterexample: for a selected file declared `image/gif` the
conversion fails with `CorruptImageData` (the GIF bytes are handed to the
JPEG decoder), not with `UnsupportedImageFormat` as claimed. -/
theorem C2_counterexample :
    (convertToPDF envGif ⟨some fileGif, false, none⟩).result
        = Except.error ConvErr.CorruptImageData ∧
    (convertToPDF envGif ⟨some fileGif, false, none⟩).result
        ≠ Except.error ConvErr.UnsupportedImageFormat := by
  decide

/-- C2, amended: for declared type `image/gif` the code selects the JPEG
decoder (the declared-MIME heuristic maps every non-PNG `image/*` type to
JPEG), so embedding fails with `CorruptImageData` when the payload does not
start with the JPEG marker; the chosen format is always PNG or JPEG, so the
builder's `UnsupportedImageFormat` rejection is never exercised by this
program. -/
theorem C2_gif_fails_as_corrupt_jpeg (env : Env) (f : SelectedFile) (bytes : List Nat)
    (dims : Nat × Nat)
    (hm : f.mimeType = some "image/gif")
    (hr : env.readBytes f.uri = Except.ok bytes)
    (he : env.embed = embedRasterImage dims)
    (hj : List.isPrefixOf jpgMagic bytes = false) :
    (buildDocument env f).2 = Except.error ConvErr.CorruptImageData ∧
    imageFormatOf f.mimeType = ImgFormat.jpg ∧
    ∀ m : Option String, imageFormatOf m = ImgFormat.png ∨ imageFormatOf m = ImgFormat.jpg := by
  have hmi : declaredStartsWith f.mimeType "image/" = true := by rw [hm]; decide
  have hfmt : imageFormatOf f.mimeType = ImgFormat.jpg := by rw [hm]; decide
  have hee : env.embed (imageFormatOf f.mimeType) bytes
      = Except.error ConvErr.CorruptImageData := by
    rw [he, hfmt]
    simp [embedRasterImage, hj]
  refine ⟨?_, hfmt, ?_⟩
  · rw [buildDocument_image_embedErr env f bytes ConvErr.CorruptImageData hmi hr hee]
  · intro m
    by_cases h : m = some "image/png" <;> simp [imageFormatOf, h]

theorem C2_gif_fails_as_corrupt_jpeg_witness :
    (buildDocument envGif fileGif).2 = Except.error ConvErr.CorruptImageData ∧
    imageFormatOf fileGif.mimeType = ImgFormat.jpg ∧
    ∀ m : Option String, imageFormatOf m = ImgFormat.png ∨ imageFormatOf m = ImgFormat.jpg :=
  C2_gif_fails_as_corrupt_jpeg envGif fileGif gifBytes (640, 480) rfl rfl rfl (by decide)

/-- C3: the dispatch is a first-match, case-sensitive prefix test on the
declared MIME type: `text/` prefixes select the text layout strategy,
otherwise `image/` prefixes select the image embedding strategy, everything
else — absent type included — falls back to the metadata strategy; the
first pipeline step `buildDocument` performs is always the selected
strategy's. -/
theorem C3_strategy_selection :
    (∀ m : Option String,
      (declaredStartsWith m "text/" = true → selectStrategy m = Strategy.textLayout) ∧
      (declaredStartsWith m "text/" = false → declaredStartsWith m "image/" = true →
        selectStrategy m = Strategy.imageEmbedding) ∧
      (declaredStartsWith m "text/" = false → declaredStartsWith m "image/" = false →
        selectStrategy m = Strategy.metadataFallback)) ∧
    selectStrategy none = Strategy.metadataFallback ∧
    selectStrategy (some "TEXT/plain") = Strategy.metadataFallback ∧
    selectStrategy (some "IMAGE/png") = Strategy.metadataFallback ∧
    ∀ env f, (buildDocument env f).1.head? = some (strategyStep (selectStrategy f.mimeType)) := by
  refine ⟨?_, by decide, by decide, by decide, ?_⟩
  · intro m
    refine ⟨fun h1 => by simp [selectStrategy, h1],
      fun h1 h2 => by simp [selectStrategy, h1, h2],
      fun h1 h2 => by simp [selectStrategy, h1, h2]⟩
  · intro env f
    cases h1 : declaredStartsWith f.mimeType "text/" with
    | true =>
        cases hr : env.readText f.uri with
        | error e =>
            rw [buildDocument_text_err env f e h1 hr]
            simp [selectStrategy, h1, strategyStep]
        | ok content =>
            rw [buildDocument_text env f content h1 hr]
            simp [selectStrategy, h1, strategyStep]
    | false =>
        cases h2 : declaredStartsWith f.mimeType "image/" with
        | true =>
            cases hr : env.readBytes f.uri with
            | error e =>
                rw [buildDocument_image_readErr env f e h2 hr]
                simp [selectStrategy, h1, h2, strategyStep]
            | ok bytes =>
                cases he : env.embed (imageFormatOf f.mimeType) bytes with
                | error e =>
                    rw [buildDocument_image_embedErr env f bytes e h2 hr he]
                    simp [selectStrategy, h1, h2, strategyStep]
                | ok img =>
                    rw [buildDocument_image env f bytes img h2 hr he]
                    simp [selectStrategy, h1, h2, strategyStep]
        | false =>
            rw [buildDocument_fallback env f h1 h2]
            simp [selectStrategy, h1, h2, strategyStep]

theorem C3_strategy_selection_witness :
    selectStrategy (some "text/plain") = Strategy.textLayout ∧
    selectStrategy (some "image/gif") = Strategy.imageEmbedding ∧
    selectStrategy (some "application/zip") = Strategy.metadataFallback :=
  ⟨(C3_strategy_selection.1 (some "text/plain")).1 (by decide),
   (C3_strategy_selection.1 (some "image/gif")).2.1 (by decide) (by decide),
   (C3_strategy_selection.1 (some "application/zip")).2.2 (by decide) (by decide)⟩

/-- C4: when any pipeline step fails the conversion aborts with an error,
nothing is persisted and the stored PDF location is untouched; the location
changes only on full success; and no step is ever executed twice (no
automatic retry). -/
theorem C4_failure_aborts (env : Env) (st : AppState) :
    ((convertToPDF env st).result ≠ Except.ok () →
      (convertToPDF env st).writes = [] ∧
      (convertToPDF env st).state.downloadUrl = st.downloadUrl) ∧
    ((convertToPDF env st).state.downloadUrl ≠ st.downloadUrl →
      (convertToPDF env st).result = Except.ok ()) ∧
    (convertToPDF env st).steps.Nodup := by
  cases hs : st.selectedFile with
  | none =>
      rw [convertToPDF_none env st hs]
      exact ⟨fun _ => ⟨rfl, rfl⟩, fun hc => absurd rfl hc, by simp⟩
  | some f =>
      cases hb : (buildDocument env f).2 with
      | error e =>
          rw [convertToPDF_buildErr env st f e hs hb]
          refine ⟨fun _ => ⟨rfl, rfl⟩, fun hc => absurd rfl hc, ?_⟩
          rcases buildDocument_steps env f with h | h | h | h <;>
            simp [h, List.nodup_cons]
      | ok doc =>
          cases hw : env.writeOk (destPath env.documentsRoot f.name) with
          | true =>
              rw [convertToPDF_writeOk env st f doc hs hb hw]
              refine ⟨fun hc => absurd rfl hc, fun _ => rfl, ?_⟩
              rcases buildDocument_steps env f with h | h | h | h <;>
                simp [h, List.nodup_cons]
          | false =>
              rw [convertToPDF_writeErr env st f doc hs hb hw]
              refine ⟨fun _ => ⟨rfl, rfl⟩, fun hc => absurd rfl hc, ?_⟩
              rcases buildDocument_steps env f with h | h | h | h <;>
                simp [h, List.nodup_cons]

theorem C4_failure_aborts_witness :
    (convertToPDF envReadFail ⟨some fileText120, false, none⟩).writes = [] ∧
    (convertToPDF envReadFail ⟨some fileText120, false, none⟩).state.downloadUrl = none :=
  (C4_failure_aborts envReadFail ⟨some fileText120, false, none⟩).1 (by decide)

/-- C5: the metadata fallback draws the header "File Conversion Details" at
(50, 700) and one multi-line block at (50, 650) listing name, declared type
(or "unknown"), size in KB to two decimals (or "unknown") and the
timestamp; for archive.zip / application/zip / 2048 bytes the block
contains "Size: 2.00 KB" and "Type: application/zip". -/
theorem C5_metadata_fallback (env : Env) (f : SelectedFile)
    (hmt : declaredStartsWith f.mimeType "text/" = false)
    (hmi : declaredStartsWith f.mimeType "image/" = false) :
    (buildDocument env f).2 = Except.ok
      [[titleOp f.name,
        DrawOp.text ⟨"File Conversion Details", 50, 700, 16, none⟩,
        DrawOp.text ⟨metaBlock f (env.getInfo f.uri) env.now, 50, 650, 12, none⟩]] ∧
    containsStr blockZip "Size: 2.00 KB" = true ∧
    containsStr blockZip "Type: application/zip" = true ∧
    containsStr blockZip "Original File: archive.zip" = true ∧
    containsStr blockZip "Converted on: " = true ∧
    toFixed2Div1024 2048 = "2.00" := by
  refine ⟨by rw [buildDocument_fallback env f hmt hmi], by decide, by decide, by decide,
    by decide, by decide⟩

theorem C5_metadata_fallback_witness :
    (buildDocument envZip fileZip).2 = Except.ok
      [[titleOp fileZip.name,
        DrawOp.text ⟨"File Conversion Details", 50, 700, 16, none⟩,
        DrawOp.text ⟨metaBlock fileZip (envZip.getInfo fileZip.uri) envZip.now,
          50, 650, 12, none⟩]] ∧
    containsStr blockZip "Size: 2.00 KB" = true ∧
    containsStr blockZip "Type: application/zip" = true ∧
    containsStr blockZip "Original File: archive.zip" = true ∧
    containsStr blockZip "Converted on: " = true ∧
    toFixed2Div1024 2048 = "2.00" :=
  C5_metadata_fallback envZip fileZip (by decide) (by decide)

/-- C6: every successfully built document has at least one page, so the
zero-page `SerializationError` branch of `serialize` never fires on it. -/
theorem C6_serialization_reachable (env : Env) (f : SelectedFile) (doc : Document)
    (h : (buildDocument env f).2 = Except.ok doc) :
    1 ≤ doc.length ∧ serialize doc = Except.ok doc ∧
    serialize doc ≠ Except.error ConvErr.SerializationError := by
  have hp := buildDocument_pages env f doc h
  have hs := serialize_ok doc hp
  exact ⟨hp, hs, by rw [hs]; exact fun hc => Except.noConfusion hc⟩

theorem C6_serialization_reachable_witness :
    1 ≤ docText120.length ∧ serialize docText120 = Except.ok docText120 ∧
    serialize docText120 ≠ Except.error ConvErr.SerializationError :=
  C6_serialization_reachable envText120 fileText120 docText120 rfl

/-- C7: for a supported raster input whose bytes decode to an image of
intrinsic size w by h, the document contains exactly one image draw
operation, at (50, 400), with drawn size w/2 by h/2. -/
theorem C7_image_half_scale (env : Env) (f : SelectedFile) (bytes : List Nat)
    (img : EmbeddedImage)
    (hm : declaredStartsWith f.mimeType "image/" = true)
    (hr : env.readBytes f.uri = Except.ok bytes)
    (he : env.embed (imageFormatOf f.mimeType) bytes = Except.ok img) :
    (buildDocument env f).2 = Except.ok
      [[titleOp f.name,
        DrawOp.image ⟨50, 400, (img.width : ℚ) / 2, (img.height : ℚ) / 2⟩]] ∧
    countImageOps
      [[titleOp f.name,
        DrawOp.image ⟨50, 400, (img.width : ℚ) / 2, (img.height : ℚ) / 2⟩]] = 1 := by
  refine ⟨by rw [buildDocument_image env f bytes img hm hr he], ?_⟩
  simp [countImageOps, titleOp]

theorem C7_image_half_scale_witness :
    (buildDocument envPng filePng).2 = Except.ok
      [[titleOp filePng.name,
        DrawOp.image ⟨50, 400, ((640 : Nat) : ℚ) / 2, ((480 : Nat) : ℚ) / 2⟩]] ∧
    countImageOps
      [[titleOp filePng.name,
        DrawOp.image ⟨50, 400, ((640 : Nat) : ℚ) / 2, ((480 : Nat) : ℚ) / 2⟩]] = 1 :=
  C7_image_half_scale envPng filePng pngBytes ⟨640, 480⟩ (by decide) rfl (by decide)

/-- C8: every successfully built document has the "Converted from: {name}"
header as the first operation of its first page, and no later page contains
that header operation. -/
theorem C8_title_first_page_only (env : Env) (f : SelectedFile) (doc : Document)
    (h : (buildDocument env f).2 = Except.ok doc) :
    ∃ r t, doc = (titleOp f.name :: r) :: t ∧ ∀ q ∈ t, ∀ o ∈ q, o ≠ titleOp f.name :=
  buildDocument_titled env f doc h

set_option maxRecDepth 4000 in
theorem C8_title_first_page_only_witness :
    ∃ r t, docText60 = (titleOp fileText60.name :: r) :: t ∧
      ∀ q ∈ t, ∀ o ∈ q, o ≠ titleOp fileText60.name :=
  C8_title_first_page_only envText60 fileText60 docText60 rfl

/-- C9: a successful conversion persists exactly at, and publishes, the path
documentsRoot ++ name-without-final-extension ++ ".pdf"; the final
dot-separated extension is removed and a name without one is unchanged. -/
theorem C9_destination_path (env : Env) (st : AppState) (f : SelectedFile)
    (name base ext : String)
    (hs : st.selectedFile = some f)
    (hok : (convertToPDF env st).result = Except.ok ())
    (hnd : '.' ∉ name.data)
    (hne : ext.data ≠ []) (hdot : '.' ∉ ext.data) (hslash : '/' ∉ ext.data) :
    (convertToPDF env st).writes = [destPath env.documentsRoot f.name] ∧
    (convertToPDF env st).state.downloadUrl = some (destPath env.documentsRoot f.name) ∧
    destPath env.documentsRoot f.name
      = env.documentsRoot ++ stripLastExt f.name ++ ".pdf" ∧
    stripLastExt name = name ∧
    stripLastExt (base ++ "." ++ ext) = base := by
  have hext : stripLastExt (base ++ "." ++ ext) = base := by
    have hdata : (base ++ "." ++ ext).data = base.data ++ '.' :: ext.data := by
      show (base.data ++ ['.']) ++ ext.data = base.data ++ '.' :: ext.data
      rw [List.append_assoc]
      rfl
    unfold stripLastExt
    rw [hdata, stripExtChars_ext base.data ext.data hne hdot hslash]
  have hplain : stripLastExt name = name := by
    unfold stripLastExt
    rw [stripExtChars_no_dot name.data hnd]
  cases hb : (buildDocument env f).2 with
  | error e =>
      rw [convertToPDF_buildErr env st f e hs hb] at hok
      simp at hok
  | ok doc =>
      cases hw : env.writeOk (destPath env.documentsRoot f.name) with
      | false =>
          rw [convertToPDF_writeErr env st f doc hs hb hw] at hok
          simp at hok
      | true =>
          rw [convertToPDF_writeOk env st f doc hs hb hw]
          exact ⟨rfl, rfl, rfl, hplain, hext⟩

theorem C9_destination_path_witness :
    (convertToPDF envZip ⟨some fileZip, false, none⟩).writes
      = [destPath envZip.documentsRoot fileZip.name] ∧
    (convertToPDF envZip ⟨some fileZip, false, none⟩).state.downloadUrl
      = some (destPath envZip.documentsRoot fileZip.name) ∧
    destPath envZip.documentsRoot fileZip.name
      = envZip.documentsRoot ++ stripLastExt fileZip.name ++ ".pdf" ∧
    stripLastExt "README" = "README" ∧
    stripLastExt ("archive" ++ "." ++ "zip") = "archive" :=
  C9_destination_path envZip ⟨some fileZip, false, none⟩ fileZip "README" "archive" "zip"
    rfl (by decide) (by decide) (by decide) (by decide) (by decide)

/-- C10: the busy flag is set to true exactly once at the start and reset
to false at the end on every completed invocation, and is never touched by
the early no-file return, so the final state is never stuck converting. -/
theorem C10_busy_flag (env : Env) (st : AppState) :
    (st.selectedFile = none →
      (convertToPDF env st).busyTrace = [] ∧ (convertToPDF env st).state = st) ∧
    (∀ f, st.selectedFile = some f →
      (convertToPDF env st).busyTrace = [true, false] ∧
      (convertToPDF env st).state.isConverting = false) := by
  constructor
  · intro h
    rw [convertToPDF_none env st h]
    exact ⟨rfl, rfl⟩
  · intro f hs
    cases hb : (buildDocument env f).2 with
    | error e =>
        rw [convertToPDF_buildErr env st f e hs hb]
        exact ⟨rfl, rfl⟩
    | ok doc =>
        cases hw : env.writeOk (destPath env.documentsRoot f.name) with
        | false =>
            rw [convertToPDF_writeErr env st f doc hs hb hw]
            exact ⟨rfl, rfl⟩
        | true =>
            rw [convertToPDF_writeOk env st f doc hs hb hw]
            exact ⟨rfl, rfl⟩

theorem C10_busy_flag_witness :
    (convertToPDF envZip ⟨some fileZip, false, none⟩).busyTrace = [true, false] ∧
    (convertToPDF envZip ⟨some fileZip, false, none⟩).state.isConverting = false :=
  (C10_busy_flag envZip ⟨some fileZip, false, none⟩).2 fileZip rfl
